import Mathlib

/-!
Verification of the RachPy client engine (`src/RachPy/Rach.py`): a shallow
embedding of the connection/correlation engine of the `Rach` class, with
theorems checking the specified behaviour of topic resolution, matcher
generation, the request correlation table, the message dispatcher and the
publish/subscribe registries.

Python strings are modelled as `List Char`, Python objects as the inductive
`PyVal`, dictionaries as insertion-ordered association lists (Python dicts
preserve insertion order), and exceptions as an `Option PyErr` component of
each operation's result.  Callback invocations are recorded as events so that
theorems can speak about which callback was invoked with which arguments.
-/

namespace RachSpec

/-- A Python string. -/
abbrev Str := List Char

/-- Turn a Lean string literal into a `Str`. -/
def lit (s : String) : Str := s.data

/-- Python exceptions that the embedded code can raise. -/
inductive PyErr where
  | typeError
  | indexError
  | keyError
  | attributeError
deriving DecidableEq, Repr

/-- Callables stored by the client: the bound methods of `Rach` that the code
itself places into `request_map`, opaque user-supplied callbacks (indexed by a
number), and Python `None` stored in a callback position (possible through
`ping`'s default arguments). -/
inductive Cb where
  | add_callback
  | rm_callback
  | add_pub_callback
  | rm_pub_callback
  | empty_callback
  | user (n : Nat)
  | noneCb
deriving DecidableEq, Repr

/-- `callable(x)` for the values that can sit in a callback position. -/
def Cb.callable : Cb → Bool
  | .noneCb => false
  | _ => true

mutual
/-- Python values: `None`, booleans, strings, integers, lists, tuples,
dictionaries (string-keyed, insertion ordered), callables and the client
object itself (`self`).  Lists and tuples are distinct, as in Python:
`[x] + (y,)` raises `TypeError` while `[x] + [y]` concatenates.  Sequences
and dictionaries are mutual inductives so that every function on them is
plain structural recursion. -/
inductive PyVal where
  | none
  | vBool (b : Bool)
  | vStr (s : Str)
  | vInt (n : Int)
  | vList (xs : PyList)
  | vTuple (xs : PyList)
  | vDict (kvs : PyDict)
  | vCb (c : Cb)
  | vSelf
inductive PyList where
  | nil
  | cons (hd : PyVal) (tl : PyList)
inductive PyDict where
  | nil
  | cons (k : Str) (v : PyVal) (tl : PyDict)
end

/-- The elements of a Python sequence, as a Lean list. -/
def PyList.toList : PyList → List PyVal
  | .nil => []
  | .cons h t => h :: t.toList

/-- Build a Python sequence from a Lean list of values. -/
def PyList.ofList : List PyVal → PyList
  | [] => .nil
  | h :: t => .cons h (PyList.ofList t)

/-- `(x,…)`: a Python tuple from a Lean list. -/
def pyTuple (l : List PyVal) : PyVal := .vTuple (PyList.ofList l)

/-- `[x,…]`: a Python list from a Lean list. -/
def pyList (l : List PyVal) : PyVal := .vList (PyList.ofList l)

def PyList.isEmpty : PyList → Bool
  | .nil => true
  | .cons _ _ => false

def PyDict.isEmpty : PyDict → Bool
  | .nil => true
  | .cons _ _ _ => false

/-- `d.get(k, default)` on a value-level dictionary: first entry with the
key wins. -/
def PyDict.get? : PyDict → Str → Option PyVal
  | .nil, _ => Option.none
  | .cons k v t, key => if k = key then some v else t.get? key

/-- The keys of a value-level dictionary, in order. -/
def PyDict.keys : PyDict → List Str
  | .nil => []
  | .cons k _ t => k :: t.keys

/-- Python truthiness of a value (`if not x`). -/
def pyTruthy : PyVal → Bool
  | .none => false
  | .vBool b => b
  | .vStr s => !s.isEmpty
  | .vInt n => n ≠ 0
  | .vList xs => !xs.isEmpty
  | .vTuple xs => !xs.isEmpty
  | .vDict kvs => !kvs.isEmpty
  | .vCb _ => true
  | .vSelf => true

mutual
/-- Whether `json.dumps` succeeds on a value: callables and the client object
are not JSON serializable (`json.dumps` raises `TypeError` on them). -/
def jsonSafe : PyVal → Bool
  | .none => true
  | .vBool _ => true
  | .vStr _ => true
  | .vInt _ => true
  | .vList xs => jsonSafeList xs
  | .vTuple xs => jsonSafeList xs
  | .vDict kvs => jsonSafeDict kvs
  | .vCb _ => false
  | .vSelf => false
def jsonSafeList : PyList → Bool
  | .nil => true
  | .cons h t => jsonSafe h && jsonSafeList t
def jsonSafeDict : PyDict → Bool
  | .nil => true
  | .cons _ v t => jsonSafe v && jsonSafeDict t
end

/-! ### Insertion-ordered dictionaries as association lists -/

/-- `d.get(k)` / `d[k]` lookup. -/
def dictGet? (m : List (Str × α)) (k : Str) : Option α :=
  (m.find? fun p => decide (p.1 = k)).map Prod.snd

/-- `k in d`. -/
def dictMem (m : List (Str × α)) (k : Str) : Bool :=
  (dictGet? m k).isSome

/-- `d[k] = v`: overwrite in place if present, else append (Python dicts keep
insertion order). -/
def dictSet (m : List (Str × α)) (k : Str) (v : α) : List (Str × α) :=
  if dictMem m k then m.map fun p => if p.1 = k then (k, v) else p
  else m ++ [(k, v)]

/-- `d.pop(k)`'s removal effect (the caller checks presence / raises). -/
def dictErase (m : List (Str × α)) (k : Str) : List (Str × α) :=
  m.filter fun p => decide (p.1 ≠ k)

/-- A set of topics (`sub_topics` / `pub_topics` map topics to `True`;
only membership and insertion order are observable). -/
def setAdd (l : List Str) (k : Str) : List Str :=
  if k ∈ l then l else l ++ [k]

/-- Removal from a topic set. -/
def setErase (l : List Str) (k : Str) : List Str :=
  l.filter fun t => decide (t ≠ k)

/-! ### Decimal rendering (`str(n)` on a non-negative int) and its injectivity -/

/-- `str(n)` for a natural number: Python's decimal rendering, which agrees
with Lean's `Nat.repr`. -/
def pyStrNat (n : Nat) : Str := (Nat.repr n).data

/-- Decode a digit character. -/
def decChar (c : Char) : Nat := c.toNat - 48

/-- Decode a most-significant-first digit string. -/
def decVal (l : Str) : Nat := l.foldl (fun a c => 10 * a + decChar c) 0

/-! ### Client state

The observable state of one `Rach` instance (`__init__`): the `connected` and
`killed` flags, the namespace, the matcher counter, the four registries, plus
two observation fields for the transport boundary: `sent` records every frame
handed to `sock.send`, `sockClosed` records that `sock.close()` was called.
Threading (`sock_manager_thread`, `join`) and logging are not modelled. -/

/-- A pending record in `request_map`: `(on_success, success_args, on_err,
err_args)`.  The args components are the stored Python objects themselves
(tuple, list or `None`), since list-vs-tuple matters on the `err` path. -/
structure ReqRec where
  onSuccess : Cb
  sArgs : PyVal
  onErr : Cb
  eArgs : PyVal

/-- An outbound frame as built by the client: `{'type': …, 'matcher': …,
'data': …}`. -/
structure OutMsg where
  typ : Str
  matcher : Option Str
  data : PyVal

structure RachState where
  connected : Bool
  killed : Bool
  sockClosed : Bool
  ns : Str
  matcher : Nat
  callbacks : List (Str × (Cb × PyVal))
  request_map : List (Str × ReqRec)
  pub_topics : List Str
  sub_topics : List Str
  sent : List OutMsg

/-- A recorded callback invocation: which callable, with which arguments. -/
abbrev CallEvent := Cb × List PyVal

/-- Result of running a client operation: the new state, the callback
invocations it performed (in order), and the exception escaping it, if any.
Mutations made before a raise persist, as in Python. -/
abbrev Res := RachState × List CallEvent × Option PyErr

/-- The state right after `__init__`. -/
def rachInit : RachState :=
  { connected := false, killed := false, sockClosed := false, ns := lit "/",
    matcher := 0, callbacks := [], request_map := [], pub_topics := [],
    sub_topics := [], sent := [] }

/-- Call a stored callable with a list of positional arguments.  User
callbacks and `empty_callback` only record the event; the four registry
methods of `Rach` mutate the registries exactly as their bodies do
(`rm_callback` / `rm_pub_callback` use `dict.pop(k)`, which raises `KeyError`
when the key is absent).  Calling `None` raises `TypeError`; so does calling a
bound registry method with an argument list that does not match its arity. -/
def invoke (s : RachState) (c : Cb) (args : List PyVal) : Res :=
  match c with
  | .noneCb => (s, [], some .typeError)
  | .empty_callback => (s, [(c, args)], Option.none)
  | .user n => (s, [(.user n, args)], Option.none)
  | .add_callback =>
    match args with
    | [.vSelf, .vStr t, .vCb cb, a] =>
        ({s with callbacks := dictSet s.callbacks t (cb, a),
                 sub_topics := setAdd s.sub_topics t},
         [(.add_callback, args)], Option.none)
    | _ => (s, [], some .typeError)
  | .rm_callback =>
    match args with
    | [.vSelf, .vStr t] =>
        if dictMem s.callbacks t then
          let s1 := {s with callbacks := dictErase s.callbacks t}
          if t ∈ s1.sub_topics then
            ({s1 with sub_topics := setErase s1.sub_topics t},
             [(.rm_callback, args)], Option.none)
          else (s1, [], some .keyError)
        else (s, [], some .keyError)
    | _ => (s, [], some .typeError)
  | .add_pub_callback =>
    match args with
    | [.vSelf, .vStr t] =>
        ({s with pub_topics := setAdd s.pub_topics t},
         [(.add_pub_callback, args)], Option.none)
    | _ => (s, [], some .typeError)
  | .rm_pub_callback =>
    match args with
    | [.vSelf, .vStr t] =>
        if t ∈ s.pub_topics then
          ({s with pub_topics := setErase s.pub_topics t},
           [(.rm_pub_callback, args)], Option.none)
        else (s, [], some .keyError)
    | _ => (s, [], some .typeError)

/-- The optional callback argument of `Rach.send` at its two kinds of call
sites: absent (every request-issuing method), or `ping`'s
`lambda e: on_fail(e) if e is not None else None`. -/
inductive SendCb where
  | noCb
  | pingCb (on_fail : Cb)

/-- `Rach.send`.  `json.dumps` raises `TypeError` on a non-serializable
message; the source's `except json.decoder.JSONDecodeError` does not catch
`TypeError`, so it propagates.  When connected, the encoded frame goes to
`sock.send` and the callback is called with `None` (both call-site callbacks
do nothing on `None`).  When not connected, the callback is called with
`True` and the frame is dropped. -/
def send (s : RachState) (msg : OutMsg) (k : SendCb) : Res :=
  if jsonSafe msg.data then
    if s.connected then
      ({s with sent := s.sent ++ [msg]}, [], Option.none)
    else
      match k with
      | .noCb => (s, [], Option.none)
      | .pingCb on_fail => invoke s on_fail [.vBool true]
  else
    (s, [], some .typeError)

/-- `Rach.make_req_matcher`: pre-increment the counter, render it in
decimal. -/
def make_req_matcher (s : RachState) : Str × RachState :=
  (pyStrNat (s.matcher + 1), {s with matcher := s.matcher + 1})

/-- The shared normalization step of `set_namespace` and
`get_fully_qualified_topic`: strip one trailing `/` from a string of length
at least 2. -/
def stripTrailingSlash (t : Str) : Str :=
  if t.length > 1 ∧ t.getLast? = some '/' then t.dropLast else t

/-- `Rach.get_fully_qualified_topic`, as a function of the namespace.
Indexing `topic[0]` on an empty string raises `IndexError`. -/
def get_fully_qualified_topic (ns : Str) (topic : Str) : Except PyErr Str :=
  let t := stripTrailingSlash topic
  match t with
  | [] => .error .indexError
  | c :: _ => if c = '/' then .ok t
              else .ok (ns ++ (if ns = [] then [] else ['/']) ++ t)

/-- `Rach.set_namespace`.  Indexing `ns[0]` on an empty string raises
`IndexError`. -/
def set_namespace (s : RachState) (ns : Str) : Except PyErr RachState :=
  let n := stripTrailingSlash ns
  match n with
  | [] => .error .indexError
  | c :: _ => .ok {s with ns := if c = '/' then n else '/' :: n}

/-! ### Request-issuing operations -/

/-- `Rach.add_sub`: resolve the topic; if already in `sub_topics`, log and
return; else allocate a matcher, register the pending record — success
callback `Rach.add_callback` with the tuple `(self, topic, callback, args)`,
error callback `Rach.empty_callback` with the tuple `(self,)` — and send the
`addSub` frame with no send-callback. -/
def add_sub (s : RachState) (topic : Str) (callback : Cb) (args : PyVal) : Res :=
  match get_fully_qualified_topic s.ns topic with
  | .error e => (s, [], some e)
  | .ok t =>
    if t ∈ s.sub_topics then (s, [], Option.none)
    else
      let (m, s1) := make_req_matcher s
      let msg : OutMsg := ⟨lit "addSub", some m, .vDict (.cons (lit "topic") (.vStr t) .nil)⟩
      let rec0 : ReqRec :=
        ⟨.add_callback, pyTuple [.vSelf, .vStr t, .vCb callback, args],
         .empty_callback, pyTuple [.vSelf]⟩
      let s2 := {s1 with request_map := dictSet s1.request_map m rec0}
      send s2 msg .noCb

/-- `Rach.rm_sub`. -/
def rm_sub (s : RachState) (topic : Str) : Res :=
  match get_fully_qualified_topic s.ns topic with
  | .error e => (s, [], some e)
  | .ok t =>
    if t ∈ s.sub_topics then
      let (m, s1) := make_req_matcher s
      let msg : OutMsg := ⟨lit "rmSub", some m, .vDict (.cons (lit "topic") (.vStr t) .nil)⟩
      let rec0 : ReqRec :=
        ⟨.rm_callback, pyTuple [.vSelf, .vStr t],
         .empty_callback, pyTuple [.vSelf]⟩
      let s2 := {s1 with request_map := dictSet s1.request_map m rec0}
      send s2 msg .noCb
    else (s, [], Option.none)

/-- The handle returned by `add_pub`: it stores the resolved topic (and, in
the source, a reference to the client, which in this embedding is threaded
explicitly). -/
structure Publisher where
  topic : Str

/-- `Rach.add_pub`: if the resolved topic is already in `pub_topics`, log and
return (`None` — no handle); else register the pending record, send the
`addPub` frame and return `Publisher(topic, self)`.  The handle is only
reached if `send` does not raise. -/
def add_pub (s : RachState) (topic : Str) : Option Publisher × Res :=
  match get_fully_qualified_topic s.ns topic with
  | .error e => (Option.none, (s, [], some e))
  | .ok t =>
    if t ∈ s.pub_topics then (Option.none, (s, [], Option.none))
    else
      let (m, s1) := make_req_matcher s
      let msg : OutMsg := ⟨lit "addPub", some m, .vDict (.cons (lit "topic") (.vStr t) .nil)⟩
      let rec0 : ReqRec :=
        ⟨.add_pub_callback, pyTuple [.vSelf, .vStr t],
         .empty_callback, pyTuple [.vSelf]⟩
      let s2 := {s1 with request_map := dictSet s1.request_map m rec0}
      let r := send s2 msg .noCb
      (if r.2.2.isSome then Option.none else some ⟨t⟩, r)

/-- `Rach.rm_pub`. -/
def rm_pub (s : RachState) (topic : Str) : Res :=
  match get_fully_qualified_topic s.ns topic with
  | .error e => (s, [], some e)
  | .ok t =>
    if t ∈ s.pub_topics then
      let (m, s1) := make_req_matcher s
      let msg : OutMsg := ⟨lit "rmPub", some m, .vDict (.cons (lit "topic") (.vStr t) .nil)⟩
      let rec0 : ReqRec :=
        ⟨.rm_pub_callback, pyTuple [.vSelf, .vStr t],
         .empty_callback, pyTuple [.vSelf]⟩
      let s2 := {s1 with request_map := dictSet s1.request_map m rec0}
      send s2 msg .noCb
    else (s, [], Option.none)

/-- `Rach.pub`: if the resolved topic is not in `pub_topics`, log and return
without sending; else allocate a matcher (no correlation record) and send a
`pub` frame with `{'topic': topic, 'data': data}`. -/
def pub (s : RachState) (topic : Str) (data : PyVal) : Res :=
  match get_fully_qualified_topic s.ns topic with
  | .error e => (s, [], some e)
  | .ok t =>
    if t ∈ s.pub_topics then
      let (m, s1) := make_req_matcher s
      let msg : OutMsg :=
        ⟨lit "pub", some m,
         .vDict (.cons (lit "topic") (.vStr t) (.cons (lit "data") data .nil))⟩
      send s1 msg .noCb
    else (s, [], Option.none)

/-- `Rach.Publisher.pub`: forwards to the client's `pub` on the stored
topic. -/
def Publisher.pubThrough (p : Publisher) (s : RachState) (data : PyVal) : Res :=
  pub s p.topic data

/-- `Rach.Publisher.close`: forwards to the client's `rm_pub` on the stored
topic. -/
def Publisher.close (p : Publisher) (s : RachState) : Res :=
  rm_pub s p.topic

/-- `Rach.service_call`: no topic resolution; the record stores the four
user-supplied values as a Python list. -/
def service_call (s : RachState) (topic : Str) (args : PyVal)
    (on_result : Cb) (on_result_args : PyVal)
    (on_err : Cb) (on_err_args : PyVal) : Res :=
  let (m, s1) := make_req_matcher s
  let msg : OutMsg :=
    ⟨lit "service", some m,
     .vDict (.cons (lit "topic") (.vStr topic) (.cons (lit "args") args .nil))⟩
  let rec0 : ReqRec := ⟨on_result, on_result_args, on_err, on_err_args⟩
  let s2 := {s1 with request_map := dictSet s1.request_map m rec0}
  send s2 msg .noCb

/-- `Rach.ping`: both callbacks default to `None`; the record stores
`[on_success, None, on_fail, None]`, and `send` is given the lambda that
calls `on_fail(e)` when `e` is not `None`. -/
def ping (s : RachState) (on_success : Cb) (on_fail : Cb) : Res :=
  let (m, s1) := make_req_matcher s
  let msg : OutMsg := ⟨lit "cs_ping", some m, .none⟩
  let rec0 : ReqRec := ⟨on_success, .none, on_fail, .none⟩
  let s2 := {s1 with request_map := dictSet s1.request_map m rec0}
  send s2 msg (.pingCb on_fail)

/-- Run a topic-consuming operation over a list of topics, accumulating
events and stopping at the first exception (a raise inside the `for` loop of
`rm_all_sub`/`rm_all_pub` propagates). -/
def runAll (f : RachState → Str → Res) : RachState → List Str → Res
  | s, [] => (s, [], Option.none)
  | s, t :: ts =>
    match f s t with
    | (s1, ev1, some e) => (s1, ev1, some e)
    | (s1, ev1, Option.none) =>
      let (s2, ev2, e2) := runAll f s1 ts
      (s2, ev1 ++ ev2, e2)

/-- `Rach.rm_all_sub`: `rm_sub` for every topic in `sub_topics`.  `rm_sub`
itself never mutates `sub_topics` (only a later `ack` does), so iterating the
list captured at entry is faithful to Python's live dict iteration. -/
def rm_all_sub (s : RachState) : Res := runAll rm_sub s s.sub_topics

/-- `Rach.rm_all_pub`: `rm_pub` for every topic in `pub_topics`. -/
def rm_all_pub (s : RachState) : Res := runAll rm_pub s s.pub_topics

/-- `Rach.stop`: set the kill flag, request removal of every subscription and
publish registration, close the socket.  (The `sock_manager_thread.join()` is
not modelled: the embedding has no threads.) -/
def stop (s : RachState) : Res :=
  let s0 := {s with killed := true}
  match rm_all_sub s0 with
  | (s1, ev1, some e) => (s1, ev1, some e)
  | (s1, ev1, Option.none) =>
    match rm_all_pub s1 with
    | (s2, ev2, some e) => (s2, ev1 ++ ev2, some e)
    | (s2, ev2, Option.none) =>
      ({s2 with sockClosed := true}, ev1 ++ ev2, Option.none)

/-! ### Inbound frames and the dispatcher -/

/-- A decoded inbound frame, as read by `process_msg` through `msg.get`:
`typ` is `msg.get('type')`, `matcher` is `msg.get('matcher', None)`,
`data` is the `'data'` entry — `Option.none` when the key is absent, `some
.none` when it is present with JSON `null` (the two differ only for `auth`,
where `msg.get('data', {})` defaults the absent case to `{}`) — and `verbose`
is `msg.get('verbose')` (`PyVal.none` when absent). -/
structure InMsg where
  typ : Option Str
  matcher : Option Str
  data : Option PyVal
  verbose : PyVal

/-- Python `f(*args)` argument unpacking: lists and tuples unpack to their
elements, strings to their characters, dicts to their keys; anything else is
not iterable and raises `TypeError`. -/
def pyStarArgs : PyVal → Except PyErr (List PyVal)
  | .vList xs => .ok xs.toList
  | .vTuple xs => .ok xs.toList
  | .vStr cs => .ok (cs.map fun c => .vStr [c])
  | .vDict kvs => .ok (kvs.keys.map fun k => .vStr k)
  | _ => .error .typeError

/-- Unpack args then call: `cb(*args)`. -/
def invokeStar (s : RachState) (c : Cb) (args : PyVal) : Res :=
  match pyStarArgs args with
  | .error e => (s, [], some e)
  | .ok xs => invoke s c xs

/-- `Rach.process_pub`: `data is None` returns; looking up
`data.get('topic')` in `callbacks` (default `(None, None)`) and calling
`cb(data, *args)` happen inside `try … except TypeError`, so every
`TypeError` along that path (missing/unhashable key, `cb` is `None`, bad
unpack, arity mismatch) is logged and dropped; a non-dict `data` raises
`AttributeError` at `data.get`, which the `except TypeError` does not
catch. -/
def process_pub (s : RachState) (data : Option PyVal) : Res :=
  match data with
  | Option.none => (s, [], Option.none)
  | some .none => (s, [], Option.none)
  | some (.vDict kvs) =>
    match kvs.get? (lit "topic") with
    | some (.vStr t) =>
      match dictGet? s.callbacks t with
      | some (cb, a) =>
        match pyStarArgs a with
        | .error _ => (s, [], Option.none)
        | .ok xs =>
          match invoke s cb (.vDict kvs :: xs) with
          | (s1, ev, some .typeError) => (s1, ev, Option.none)
          | r => r
      | Option.none => (s, [], Option.none)
    | _ => (s, [], Option.none)
  | some _ => (s, [], some .attributeError)

/-- `Rach.process_msg`: dispatch on the frame's `type` tag.

* missing/empty type: log and return;
* `auth`: if `msg.get('data', {}).get('success', False)` is not truthy, run
  `stop()`;
* `err`: if the matcher is pending, pop the record and run
  `cb(*([err_msg] + args))` when the stored error args are not `None`
  (`list + non-list` raises `TypeError`), else `cb(err_msg)`;
* `ack`: pop and run `cb(*args)` on the stored success args;
* `pub`: route `msg.get('data', None)` to `process_pub`;
* `service`: pop and run `cb(*([data] + args))` when the frame carries data,
  else `cb(*args)`;
* `cs_ping`: pop and run `on_success()` if it is callable;
* anything else: fall through, no effect. -/
def process_msg (s : RachState) (msg : InMsg) : Res :=
  match msg.typ with
  | Option.none => (s, [], Option.none)
  | some ty =>
    if ty = [] then (s, [], Option.none)
    else if ty = lit "auth" then
      match msg.data with
      | Option.none => stop s
      | some (.vDict kvs) =>
        if pyTruthy ((kvs.get? (lit "success")).getD (.vBool false)) then
          (s, [], Option.none)
        else stop s
      | some _ => (s, [], some .attributeError)
    else if ty = lit "err" then
      match msg.matcher with
      | Option.none => (s, [], Option.none)
      | some m =>
        match dictGet? s.request_map m with
        | Option.none => (s, [], Option.none)
        | some r =>
          let s1 := {s with request_map := dictErase s.request_map m}
          match r.eArgs with
          | .none => invoke s1 r.onErr [msg.verbose]
          | .vList xs => invoke s1 r.onErr (msg.verbose :: xs.toList)
          | _ => (s1, [], some .typeError)
    else if ty = lit "ack" then
      match msg.matcher with
      | Option.none => (s, [], Option.none)
      | some m =>
        match dictGet? s.request_map m with
        | Option.none => (s, [], Option.none)
        | some r =>
          let s1 := {s with request_map := dictErase s.request_map m}
          invokeStar s1 r.onSuccess r.sArgs
    else if ty = lit "pub" then
      process_pub s msg.data
    else if ty = lit "service" then
      match msg.matcher with
      | Option.none => (s, [], Option.none)
      | some m =>
        match dictGet? s.request_map m with
        | Option.none => (s, [], Option.none)
        | some r =>
          let s1 := {s with request_map := dictErase s.request_map m}
          match msg.data with
          | Option.none | some .none =>
            invokeStar s1 r.onSuccess r.sArgs
          | some d =>
            match r.sArgs with
            | .vList xs => invoke s1 r.onSuccess (d :: xs.toList)
            | _ => (s1, [], some .typeError)
    else if ty = lit "cs_ping" then
      match msg.matcher with
      | Option.none => (s, [], Option.none)
      | some m =>
        match dictGet? s.request_map m with
        | Option.none => (s, [], Option.none)
        | some r =>
          let s1 := {s with request_map := dictErase s.request_map m}
          if r.onSuccess.callable then invoke s1 r.onSuccess []
          else (s1, [], Option.none)
    else (s, [], Option.none)

/-- A fully-qualified topic as the client stores them: starts with `/` and
carries no trailing `/` (except the one-character topic `/` itself). -/
def resolvedTopic (t : Str) : Prop :=
  t.head? = some '/' ∧ (t = ['/'] ∨ t.getLast? ≠ some '/')

/-- The matcher strings returned by `n` successive calls of
`make_req_matcher`, with the state threaded through. -/
def genMatchers : RachState → Nat → List Str × RachState
  | s, 0 => ([], s)
  | s, n + 1 =>
    let (m, s1) := make_req_matcher s
    let (ms, s2) := genMatchers s1 n
    (m :: ms, s2)

/-! ### Theorems -/

theorem decVal_append_singleton (l : Str) (c : Char) :
    decVal (l ++ [c]) = 10 * decVal l + decChar c := by
  simp [decVal, List.foldl_append]

theorem toDigitsCore_append (f : Nat) : ∀ (n : Nat) (acc : List Char),
    Nat.toDigitsCore 10 f n acc = Nat.toDigitsCore 10 f n [] ++ acc := by
  induction f with
  | zero => intro n acc; simp [Nat.toDigitsCore]
  | succ f ih =>
    intro n acc
    simp only [Nat.toDigitsCore]
    by_cases h : n / 10 = 0
    · simp [h]
    · simp only [h, if_false]
      rw [ih (n / 10) (Nat.digitChar (n % 10) :: acc),
          ih (n / 10) [Nat.digitChar (n % 10)]]
      simp

theorem decChar_digitChar (m : Nat) (h : m < 10) :
    decChar (Nat.digitChar m) = m := by
  interval_cases m <;> decide

theorem decVal_toDigitsCore (f : Nat) : ∀ (n : Nat), n < 10 ^ f →
    decVal (Nat.toDigitsCore 10 f n []) = n := by
  induction f with
  | zero =>
    intro n hn
    interval_cases n
    simp [Nat.toDigitsCore, decVal]
  | succ f ih =>
    intro n hn
    simp only [Nat.toDigitsCore]
    by_cases h : n / 10 = 0
    · simp only [h, if_true]
      have hlt : n < 10 := by omega
      have : decVal [Nat.digitChar (n % 10)] = n % 10 := by
        simpa [decVal] using decChar_digitChar (n % 10) (Nat.mod_lt n (by omega))
      rw [this]; omega
    · simp only [h, if_false]
      rw [toDigitsCore_append f (n / 10) [Nat.digitChar (n % 10)],
          decVal_append_singleton,
          ih (n / 10) (by
            have hpow : 10 ^ (f + 1) = 10 * 10 ^ f := by ring
            rw [hpow] at hn
            exact Nat.div_lt_of_lt_mul hn),
          decChar_digitChar (n % 10) (Nat.mod_lt n (by omega))]
      omega

theorem decVal_pyStrNat (n : Nat) : decVal (pyStrNat n) = n := by
  have hfuel : n < 10 ^ (n + 1) := by
    calc n < 10 ^ n := Nat.lt_pow_self (by norm_num) n
    _ ≤ 10 ^ (n + 1) := Nat.pow_le_pow_right (by norm_num) (Nat.le_succ n)
  simpa [pyStrNat, Nat.repr, Nat.toDigits, List.asString] using
    decVal_toDigitsCore (n + 1) n hfuel

theorem pyStrNat_injective : Function.Injective pyStrNat := by
  intro m n h
  have := decVal_pyStrNat m
  rw [h, decVal_pyStrNat] at this
  exact this.symm

theorem stripTrailingSlash_ne_nil {t : Str} (h : t ≠ []) :
    stripTrailingSlash t ≠ [] := by
  unfold stripTrailingSlash
  split
  · next hc =>
    have : t.length > 1 := hc.1
    have hd : t.dropLast.length = t.length - 1 := List.length_dropLast t
    intro hnil
    rw [hnil] at hd
    simp at hd
    omega
  · exact h

theorem stripTrailingSlash_resolved {t : Str} (h : resolvedTopic t) :
    stripTrailingSlash t = t := by
  unfold stripTrailingSlash
  rcases h with ⟨-, h2 | h2⟩
  · subst h2; simp
  · split
    · next hc => exact absurd hc.2 h2
    · rfl

theorem gfqt_resolved (ns : Str) {t : Str} (h : resolvedTopic t) :
    get_fully_qualified_topic ns t = .ok t := by
  unfold get_fully_qualified_topic
  rw [stripTrailingSlash_resolved h]
  rcases h with ⟨h1, -⟩
  match t, h1 with
  | c :: rest, h1 =>
    simp only [List.head?] at h1
    simp [Option.some_inj.mp h1]

theorem dictGet?_nil (k : Str) : dictGet? ([] : List (Str × α)) k = Option.none := rfl

theorem dictGet?_cons (p : Str × α) (rest : List (Str × α)) (k : Str) :
    dictGet? (p :: rest) k =
      if p.1 = k then some p.2 else dictGet? rest k := by
  by_cases h : p.1 = k
  · rw [dictGet?, List.find?_cons_of_pos _ (by simpa using h), if_pos h]
    rfl
  · rw [dictGet?, List.find?_cons_of_neg _ (by simpa using h), if_neg h]
    rfl

theorem dictGet?_append (l1 l2 : List (Str × α)) (k : Str) :
    dictGet? (l1 ++ l2) k =
      if dictMem l1 k then dictGet? l1 k else dictGet? l2 k := by
  induction l1 with
  | nil => simp [dictMem, dictGet?_nil]
  | cons p rest ih =>
    by_cases h : p.1 = k
    · simp [dictGet?_cons, dictMem, h]
    · simp only [List.cons_append, dictGet?_cons, h, if_false, ih, dictMem]

theorem dictGet?_dictSet_self (m : List (Str × α)) (k : Str) (v : α) :
    dictGet? (dictSet m k v) k = some v := by
  unfold dictSet
  split
  · next hmem =>
    induction m with
    | nil => simp [dictMem, dictGet?_nil] at hmem
    | cons p rest ih =>
      by_cases hk : p.1 = k
      · subst hk
        simp [dictGet?_cons]
      · have hmem' : dictMem rest k = true := by
          simpa [dictMem, dictGet?_cons, hk] using hmem
        have := ih hmem'
        simpa [dictGet?_cons, hk] using this
  · next hmem =>
    rw [dictGet?_append]
    have : dictMem m k = false := by simpa using hmem
    rw [this]
    simp [dictGet?_cons]

theorem dictMem_dictSet_self (m : List (Str × α)) (k : Str) (v : α) :
    dictMem (dictSet m k v) k = true := by
  simp [dictMem, dictGet?_dictSet_self]

theorem dictGet?_dictErase_self (m : List (Str × α)) (k : Str) :
    dictGet? (dictErase m k) k = Option.none := by
  induction m with
  | nil => simp [dictGet?_nil, dictErase]
  | cons p rest ih =>
    by_cases hk : p.1 = k
    · simpa [dictErase, List.filter, hk] using ih
    · simpa [dictErase, List.filter, hk, dictGet?_cons] using ih

theorem dictMem_dictErase_self (m : List (Str × α)) (k : Str) :
    dictMem (dictErase m k) k = false := by
  simp [dictMem, dictGet?_dictErase_self]

theorem jsonSafe_topicDict (t : Str) :
    jsonSafe (.vDict (.cons (lit "topic") (.vStr t) .nil)) = true := rfl

theorem jsonSafe_pubDict (t : Str) (d : PyVal) (hd : jsonSafe d = true) :
    jsonSafe (.vDict (.cons (lit "topic") (.vStr t)
      (.cons (lit "data") d .nil))) = true := by
  simp [jsonSafe, jsonSafeDict, hd]

/-! ### C5: topic resolution -/

/-- C5 — `get_fully_qualified_topic` strips a single trailing `/` (except for
the one-character topic `/`), returns topics beginning with `/` unchanged
thereafter, and resolves any other topic `t` to `namespace ++ "/" ++ t`; in
particular `"/a/b/"` and `"/a/b"` both resolve to `"/a/b"`, and `"x"` under
namespace `"/ns"` resolves to `"/ns/x"`. -/
theorem c5_topic_resolution (ns t : Str) (hns : ns ≠ []) (ht : t ≠ []) :
    (∀ u : Str, u ≠ [] → stripTrailingSlash (u ++ ['/']) = u) ∧
    stripTrailingSlash ['/'] = ['/'] ∧
    (∀ rest : Str, stripTrailingSlash t = '/' :: rest →
      get_fully_qualified_topic ns t = .ok ('/' :: rest)) ∧
    (∀ (c : Char) (rest : Str), stripTrailingSlash t = c :: rest → c ≠ '/' →
      get_fully_qualified_topic ns t = .ok (ns ++ '/' :: c :: rest)) ∧
    get_fully_qualified_topic ns (lit "/a/b/") = .ok (lit "/a/b") ∧
    get_fully_qualified_topic ns (lit "/a/b") = .ok (lit "/a/b") ∧
    get_fully_qualified_topic (lit "/ns") (lit "x") = .ok (lit "/ns/x") := by
  refine ⟨?_, rfl, ?_, ?_, rfl, rfl, rfl⟩
  · intro u hu
    have hlen : (u ++ ['/']).length > 1 := by
      have := List.length_pos.mpr hu
      simp only [List.length_append, List.length_cons, List.length_nil]
      omega
    simp [stripTrailingSlash, hlen, List.getLast?_concat, List.dropLast_concat, hu]
  · intro rest h
    simp [get_fully_qualified_topic, h]
  · intro c rest h hc
    simp [get_fully_qualified_topic, h, hc, hns]

/-- C5 witness: the theorem instantiated at namespace `/ns` and topic `x`. -/
theorem c5_topic_resolution_witness :
    get_fully_qualified_topic (lit "/ns") (lit "x") = .ok (lit "/ns/x") :=
  (c5_topic_resolution (lit "/ns") (lit "x") (by decide) (by decide)).2.2.2.2.2.2

/-! ### C10: empty-string inputs -/

/-- C10 — `set_namespace` and `get_fully_qualified_topic` raise `IndexError`
on the empty string (the `ns[0]` / `topic[0]` test), and succeed on every
non-empty string. -/
theorem c10_empty_string_partiality (s : RachState) (ns : Str) :
    get_fully_qualified_topic ns [] = .error .indexError ∧
    set_namespace s [] = .error .indexError ∧
    (∀ t : Str, t ≠ [] → ∃ r, get_fully_qualified_topic ns t = .ok r) ∧
    (∀ n : Str, n ≠ [] → ∃ s2, set_namespace s n = .ok s2) := by
  refine ⟨rfl, rfl, ?_, ?_⟩
  · intro t ht
    obtain ⟨c, rest, hcr⟩ : ∃ c rest, stripTrailingSlash t = c :: rest := by
      cases hst : stripTrailingSlash t with
      | nil => exact absurd hst (stripTrailingSlash_ne_nil ht)
      | cons c rest => exact ⟨c, rest, rfl⟩
    by_cases hc : c = '/'
    · subst hc
      exact ⟨'/' :: rest, by simp [get_fully_qualified_topic, hcr]⟩
    · exact ⟨ns ++ ((if ns = [] then [] else ['/']) ++ c :: rest),
        by simp [get_fully_qualified_topic, hcr, hc]⟩
  · intro n hn
    obtain ⟨c, rest, hcr⟩ : ∃ c rest, stripTrailingSlash n = c :: rest := by
      cases hst : stripTrailingSlash n with
      | nil => exact absurd hst (stripTrailingSlash_ne_nil hn)
      | cons c rest => exact ⟨c, rest, rfl⟩
    by_cases hc : c = '/'
    · subst hc
      exact ⟨{s with ns := '/' :: rest}, by simp [set_namespace, hcr]⟩
    · exact ⟨{s with ns := '/' :: c :: rest}, by simp [set_namespace, hcr, hc]⟩

/-- C10 witness: the empty string fails, the topic `x` succeeds. -/
theorem c10_empty_string_partiality_witness :
    get_fully_qualified_topic (lit "/") [] = .error .indexError ∧
    (∃ r, get_fully_qualified_topic (lit "/") (lit "x") = .ok r) :=
  ⟨(c10_empty_string_partiality rachInit (lit "/")).1,
   (c10_empty_string_partiality rachInit (lit "/")).2.2.1 (lit "x") (by decide)⟩

/-! ### C3: matcher generation -/

theorem genMatchers_spec (n : Nat) : ∀ s : RachState,
    (genMatchers s n).1 =
      (List.range n).map (fun i => pyStrNat (s.matcher + 1 + i)) := by
  induction n with
  | zero => intro s; rfl
  | succ n ih =>
    intro s
    rw [List.range_succ_eq_map]
    simp only [genMatchers, make_req_matcher, List.map_cons, List.map_map]
    refine congrArg₂ _ (by rw [Nat.add_zero]) ?_
    rw [ih]
    refine congrArg₂ _ ?_ rfl
    funext i
    simp only [Function.comp]
    congr 1
    omega

theorem invoke_matcher (s : RachState) (c : Cb) (args : List PyVal) :
    (invoke s c args).1.matcher = s.matcher := by
  unfold invoke
  repeat' split
  all_goals first
    | rfl
    | (dsimp only; split <;> rfl)

theorem invokeStar_matcher (s : RachState) (c : Cb) (a : PyVal) :
    (invokeStar s c a).1.matcher = s.matcher := by
  unfold invokeStar
  split
  · rfl
  · exact invoke_matcher ..

theorem send_matcher (s : RachState) (msg : OutMsg) (k : SendCb) :
    (send s msg k).1.matcher = s.matcher := by
  unfold send
  repeat' split
  any_goals rfl
  exact invoke_matcher ..

theorem rm_sub_matcher_le (s : RachState) (t : Str) :
    s.matcher ≤ (rm_sub s t).1.matcher := by
  unfold rm_sub
  cases get_fully_qualified_topic s.ns t with
  | error e => exact le_refl _
  | ok tt =>
    simp only
    split
    · rw [send_matcher]
      exact Nat.le_succ _
    · exact le_refl _

theorem rm_pub_matcher_le (s : RachState) (t : Str) :
    s.matcher ≤ (rm_pub s t).1.matcher := by
  unfold rm_pub
  cases get_fully_qualified_topic s.ns t with
  | error e => exact le_refl _
  | ok tt =>
    simp only
    split
    · rw [send_matcher]
      exact Nat.le_succ _
    · exact le_refl _

theorem runAll_matcher_le (f : RachState → Str → Res)
    (hf : ∀ s t, s.matcher ≤ (f s t).1.matcher) :
    ∀ (ts : List Str) (s : RachState), s.matcher ≤ (runAll f s ts).1.matcher := by
  intro ts
  induction ts with
  | nil => intro s; exact le_refl _
  | cons t ts ih =>
    intro s
    unfold runAll
    split
    · next s1 ev1 e heq =>
      calc s.matcher ≤ (f s t).1.matcher := hf s t
        _ = s1.matcher := by rw [heq]
    · next s1 ev1 heq =>
      have h1 : s.matcher ≤ s1.matcher := by
        calc s.matcher ≤ (f s t).1.matcher := hf s t
          _ = s1.matcher := by rw [heq]
      exact le_trans h1 (ih s1)

theorem stop_matcher_le (s : RachState) :
    s.matcher ≤ (stop s).1.matcher := by
  have h1 : s.matcher ≤ (rm_all_sub {s with killed := true}).1.matcher :=
    runAll_matcher_le rm_sub rm_sub_matcher_le
      ({s with killed := true} : RachState).sub_topics {s with killed := true}
  simp only [stop]
  split
  · next s1 ev1 e heq =>
    rw [heq] at h1
    exact h1
  · next s1 ev1 heq =>
    rw [heq] at h1
    have h2 : s1.matcher ≤ (rm_all_pub s1).1.matcher :=
      runAll_matcher_le rm_pub rm_pub_matcher_le s1.pub_topics s1
    split
    · next s2 ev2 e heq2 =>
      rw [heq2] at h2
      exact le_trans h1 h2
    · next s2 ev2 heq2 =>
      rw [heq2] at h2
      exact le_trans h1 h2

theorem process_pub_matcher (s : RachState) (data : Option PyVal) :
    (process_pub s data).1.matcher = s.matcher := by
  unfold process_pub
  repeat' split
  any_goals rfl
  · next s1 ev heq =>
    have h := congrArg (fun r : Res => r.1.matcher) heq
    simp only at h
    rw [← h]
    exact invoke_matcher ..
  · exact invoke_matcher ..

theorem process_msg_matcher_le (s : RachState) (msg : InMsg) :
    s.matcher ≤ (process_msg s msg).1.matcher := by
  simp only [process_msg]
  repeat' split
  all_goals first
    | exact le_refl _
    | exact stop_matcher_le s
    | simp only [invoke_matcher, invokeStar_matcher, process_pub_matcher, le_refl]

/-- C3 — `make_req_matcher` pre-increments the counter (which starts at 0 in
a fresh client) and returns its decimal rendering; any `n` successive calls
return pairwise-distinct matcher strings whose numeric values strictly
increase in generation order, and processing an inbound frame (resolving or
dropping pending requests) never decreases the counter, so a matcher is never
reused. -/
theorem c3_matcher_generation (s : RachState) (n : Nat) (msg : InMsg) :
    rachInit.matcher = 0 ∧
    make_req_matcher s = (pyStrNat (s.matcher + 1), {s with matcher := s.matcher + 1}) ∧
    (genMatchers s n).1 = (List.range n).map (fun i => pyStrNat (s.matcher + 1 + i)) ∧
    List.Pairwise (· ≠ ·) (genMatchers s n).1 ∧
    List.Pairwise (· < ·) ((genMatchers s n).1.map decVal) ∧
    s.matcher ≤ (process_msg s msg).1.matcher := by
  refine ⟨rfl, rfl, genMatchers_spec n s, ?_, ?_, process_msg_matcher_le s msg⟩
  · rw [genMatchers_spec n s, List.pairwise_map]
    refine (List.pairwise_lt_range n).imp ?_
    intro i j hij h
    have := pyStrNat_injective h
    omega
  · rw [genMatchers_spec n s, List.map_map]
    have : decVal ∘ (fun i => pyStrNat (s.matcher + 1 + i)) =
        fun i => s.matcher + 1 + i := by
      funext i
      simp [Function.comp, decVal_pyStrNat]
    rw [this, List.pairwise_map]
    refine (List.pairwise_lt_range n).imp ?_
    intro i j hij
    omega

/-! ### Operation equations -/

theorem send_noCb_eq (s : RachState) (ty : Str) (m : Option Str) (d : PyVal)
    (hsafe : jsonSafe d = true) :
    send s ⟨ty, m, d⟩ .noCb =
      (if s.connected then {s with sent := s.sent ++ [⟨ty, m, d⟩]} else s,
       [], Option.none) := by
  by_cases hc : s.connected <;> simp [send, hsafe, hc]

theorem add_sub_already (s : RachState) (topic t : Str) (cb : Cb) (args : PyVal)
    (hres : get_fully_qualified_topic s.ns topic = .ok t)
    (h : t ∈ s.sub_topics) :
    add_sub s topic cb args = (s, [], Option.none) := by
  simp only [add_sub, hres]
  rw [if_pos h]

theorem add_sub_eq (s : RachState) (topic t : Str) (cb : Cb) (args : PyVal)
    (hres : get_fully_qualified_topic s.ns topic = .ok t)
    (h : t ∉ s.sub_topics) :
    add_sub s topic cb args =
      (let s2 : RachState :=
        {s with matcher := s.matcher + 1,
                request_map := dictSet s.request_map (pyStrNat (s.matcher + 1))
                  ⟨.add_callback, pyTuple [.vSelf, .vStr t, .vCb cb, args],
                   .empty_callback, pyTuple [.vSelf]⟩}
       (if s.connected then
          {s2 with sent := s2.sent ++ [⟨lit "addSub", some (pyStrNat (s.matcher + 1)),
            .vDict (.cons (lit "topic") (.vStr t) .nil)⟩]}
        else s2, [], Option.none)) := by
  simp only [add_sub, hres, make_req_matcher]
  rw [if_neg h, send_noCb_eq _ _ _ _ (jsonSafe_topicDict t)]

theorem rm_sub_not_subscribed (s : RachState) (topic t : Str)
    (hres : get_fully_qualified_topic s.ns topic = .ok t)
    (h : t ∉ s.sub_topics) :
    rm_sub s topic = (s, [], Option.none) := by
  simp only [rm_sub, hres]
  rw [if_neg h]

theorem rm_sub_eq (s : RachState) (topic t : Str)
    (hres : get_fully_qualified_topic s.ns topic = .ok t)
    (h : t ∈ s.sub_topics) :
    rm_sub s topic =
      (let s2 : RachState :=
        {s with matcher := s.matcher + 1,
                request_map := dictSet s.request_map (pyStrNat (s.matcher + 1))
                  ⟨.rm_callback, pyTuple [.vSelf, .vStr t],
                   .empty_callback, pyTuple [.vSelf]⟩}
       (if s.connected then
          {s2 with sent := s2.sent ++ [⟨lit "rmSub", some (pyStrNat (s.matcher + 1)),
            .vDict (.cons (lit "topic") (.vStr t) .nil)⟩]}
        else s2, [], Option.none)) := by
  simp only [rm_sub, hres, make_req_matcher]
  rw [if_pos h, send_noCb_eq _ _ _ _ (jsonSafe_topicDict t)]

theorem add_pub_already (s : RachState) (topic t : Str)
    (hres : get_fully_qualified_topic s.ns topic = .ok t)
    (h : t ∈ s.pub_topics) :
    add_pub s topic = (Option.none, (s, [], Option.none)) := by
  simp only [add_pub, hres]
  rw [if_pos h]

theorem add_pub_eq (s : RachState) (topic t : Str)
    (hres : get_fully_qualified_topic s.ns topic = .ok t)
    (h : t ∉ s.pub_topics) :
    add_pub s topic =
      (let s2 : RachState :=
        {s with matcher := s.matcher + 1,
                request_map := dictSet s.request_map (pyStrNat (s.matcher + 1))
                  ⟨.add_pub_callback, pyTuple [.vSelf, .vStr t],
                   .empty_callback, pyTuple [.vSelf]⟩}
       (some ⟨t⟩,
        (if s.connected then
          {s2 with sent := s2.sent ++ [⟨lit "addPub", some (pyStrNat (s.matcher + 1)),
            .vDict (.cons (lit "topic") (.vStr t) .nil)⟩]}
         else s2, [], Option.none))) := by
  simp only [add_pub, hres, make_req_matcher]
  rw [if_neg h]
  simp only [send_noCb_eq _ _ _ _ (jsonSafe_topicDict t)]
  by_cases hc : s.connected <;> simp [hc]

theorem rm_pub_not_registered (s : RachState) (topic t : Str)
    (hres : get_fully_qualified_topic s.ns topic = .ok t)
    (h : t ∉ s.pub_topics) :
    rm_pub s topic = (s, [], Option.none) := by
  simp only [rm_pub, hres]
  rw [if_neg h]

theorem rm_pub_eq (s : RachState) (topic t : Str)
    (hres : get_fully_qualified_topic s.ns topic = .ok t)
    (h : t ∈ s.pub_topics) :
    rm_pub s topic =
      (let s2 : RachState :=
        {s with matcher := s.matcher + 1,
                request_map := dictSet s.request_map (pyStrNat (s.matcher + 1))
                  ⟨.rm_pub_callback, pyTuple [.vSelf, .vStr t],
                   .empty_callback, pyTuple [.vSelf]⟩}
       (if s.connected then
          {s2 with sent := s2.sent ++ [⟨lit "rmPub", some (pyStrNat (s.matcher + 1)),
            .vDict (.cons (lit "topic") (.vStr t) .nil)⟩]}
        else s2, [], Option.none)) := by
  simp only [rm_pub, hres, make_req_matcher]
  rw [if_pos h, send_noCb_eq _ _ _ _ (jsonSafe_topicDict t)]

theorem pub_not_registered (s : RachState) (topic t : Str) (data : PyVal)
    (hres : get_fully_qualified_topic s.ns topic = .ok t)
    (h : t ∉ s.pub_topics) :
    pub s topic data = (s, [], Option.none) := by
  simp only [pub, hres]
  rw [if_neg h]

theorem pub_eq (s : RachState) (topic t : Str) (data : PyVal)
    (hres : get_fully_qualified_topic s.ns topic = .ok t)
    (h : t ∈ s.pub_topics) (hd : jsonSafe data = true) :
    pub s topic data =
      (let s1 : RachState := {s with matcher := s.matcher + 1}
       (if s.connected then
          {s1 with sent := s1.sent ++ [⟨lit "pub", some (pyStrNat (s.matcher + 1)),
            .vDict (.cons (lit "topic") (.vStr t)
              (.cons (lit "data") data .nil))⟩]}
        else s1, [], Option.none)) := by
  simp only [pub, hres, make_req_matcher]
  rw [if_pos h, send_noCb_eq _ _ _ _ (jsonSafe_pubDict t data hd)]

theorem service_call_eq (s : RachState) (topic : Str) (args : PyVal)
    (onRes : Cb) (onResArgs : PyVal) (onErr : Cb) (onErrArgs : PyVal)
    (hargs : jsonSafe args = true) :
    service_call s topic args onRes onResArgs onErr onErrArgs =
      (let s2 : RachState :=
        {s with matcher := s.matcher + 1,
                request_map := dictSet s.request_map (pyStrNat (s.matcher + 1))
                  ⟨onRes, onResArgs, onErr, onErrArgs⟩}
       (if s.connected then
          {s2 with sent := s2.sent ++ [⟨lit "service", some (pyStrNat (s.matcher + 1)),
            .vDict (.cons (lit "topic") (.vStr topic)
              (.cons (lit "args") args .nil))⟩]}
        else s2, [], Option.none)) := by
  have hs : jsonSafe (.vDict (.cons (lit "topic") (.vStr topic)
      (.cons (lit "args") args .nil))) = true := by
    simp [jsonSafe, jsonSafeDict, hargs]
  simp only [service_call, make_req_matcher]
  rw [send_noCb_eq _ _ _ _ hs]

theorem ping_eq (s : RachState) (onS onF : Cb) :
    ping s onS onF =
      (let s2 : RachState :=
        {s with matcher := s.matcher + 1,
                request_map := dictSet s.request_map (pyStrNat (s.matcher + 1))
                  ⟨onS, .none, onF, .none⟩}
       if s.connected then
         ({s2 with sent := s2.sent ++ [⟨lit "cs_ping", some (pyStrNat (s.matcher + 1)), .none⟩]},
          [], Option.none)
       else invoke s2 onF [.vBool true]) := by
  simp only [ping, make_req_matcher, send]
  by_cases hc : s.connected <;> simp [hc, jsonSafe]

/-! ### C1: local send failure -/

/-- C1 counterexample — on a fresh, not-connected client, `add_sub` invokes
no callback at all (no events), raises nothing, and leaves the freshly
registered pending record in `request_map`: the claimed synchronous error
callback and the removal of the record do not happen. -/
theorem c1_counterexample :
    rachInit.connected = false ∧
    (add_sub rachInit (lit "a") (.user 0) (pyList [])).2.1 = [] ∧
    (add_sub rachInit (lit "a") (.user 0) (pyList [])).2.2 = Option.none ∧
    dictMem (add_sub rachInit (lit "a") (.user 0) (pyList [])).1.request_map
      (lit "1") = true :=
  ⟨rfl, rfl, rfl, by decide⟩

/-- C1 amended — when the client is not connected, `add_sub`, `rm_sub`,
`add_pub`, `rm_pub` and `service_call` pass no callback to `send`, so the
local send failure invokes no error callback and raises nothing, while the
freshly registered pending record stays in `request_map`; only `ping` passes
a callback, so its `on_fail` fires synchronously with `True` — but its
pending record also remains in the table. -/
theorem c1_send_failure (s : RachState) (topic t : Str) (cb onS : Cb)
    (args svcArgs onResArgs onErrArgs : PyVal) (onRes onErr : Cb) (n : Nat)
    (hconn : s.connected = false)
    (hres : get_fully_qualified_topic s.ns topic = .ok t) :
    (t ∉ s.sub_topics →
      (add_sub s topic cb args).2.1 = [] ∧
      (add_sub s topic cb args).2.2 = Option.none ∧
      dictMem (add_sub s topic cb args).1.request_map
        (pyStrNat (s.matcher + 1)) = true) ∧
    (t ∈ s.sub_topics →
      (rm_sub s topic).2.1 = [] ∧
      (rm_sub s topic).2.2 = Option.none ∧
      dictMem (rm_sub s topic).1.request_map (pyStrNat (s.matcher + 1)) = true) ∧
    (t ∉ s.pub_topics →
      (add_pub s topic).2.2.1 = [] ∧
      (add_pub s topic).2.2.2 = Option.none ∧
      dictMem (add_pub s topic).2.1.request_map
        (pyStrNat (s.matcher + 1)) = true) ∧
    (t ∈ s.pub_topics →
      (rm_pub s topic).2.1 = [] ∧
      (rm_pub s topic).2.2 = Option.none ∧
      dictMem (rm_pub s topic).1.request_map (pyStrNat (s.matcher + 1)) = true) ∧
    (jsonSafe svcArgs = true →
      (service_call s topic svcArgs onRes onResArgs onErr onErrArgs).2.1 = [] ∧
      (service_call s topic svcArgs onRes onResArgs onErr onErrArgs).2.2 =
        Option.none ∧
      dictMem (service_call s topic svcArgs onRes onResArgs onErr onErrArgs).1.request_map
        (pyStrNat (s.matcher + 1)) = true) ∧
    ((ping s onS (.user n)).2.1 = [(.user n, [.vBool true])] ∧
      (ping s onS (.user n)).2.2 = Option.none ∧
      dictMem (ping s onS (.user n)).1.request_map
        (pyStrNat (s.matcher + 1)) = true) := by
  refine ⟨?_, ?_, ?_, ?_, ?_, ?_⟩
  · intro h
    rw [add_sub_eq s topic t cb args hres h]
    simp [hconn, dictMem_dictSet_self]
  · intro h
    rw [rm_sub_eq s topic t hres h]
    simp [hconn, dictMem_dictSet_self]
  · intro h
    rw [add_pub_eq s topic t hres h]
    simp [hconn, dictMem_dictSet_self]
  · intro h
    rw [rm_pub_eq s topic t hres h]
    simp [hconn, dictMem_dictSet_self]
  · intro h
    rw [service_call_eq s topic svcArgs onRes onResArgs onErr onErrArgs h]
    simp [hconn, dictMem_dictSet_self]
  · rw [ping_eq s onS (.user n)]
    simp [hconn, invoke, dictMem_dictSet_self]

/-- C1 amended witness: the fresh disconnected client, topic `a` resolving
to `//a`, and a ping with a user-supplied failure callback. -/
theorem c1_send_failure_witness :
    ((add_sub rachInit (lit "a") (.user 0) (pyList [])).2.1 = [] ∧
      (add_sub rachInit (lit "a") (.user 0) (pyList [])).2.2 = Option.none ∧
      dictMem (add_sub rachInit (lit "a") (.user 0) (pyList [])).1.request_map
        (pyStrNat 1) = true) ∧
    ((ping rachInit (.user 0) (.user 1)).2.1 = [(.user 1, [.vBool true])] ∧
      (ping rachInit (.user 0) (.user 1)).2.2 = Option.none ∧
      dictMem (ping rachInit (.user 0) (.user 1)).1.request_map
        (pyStrNat 1) = true) :=
  ⟨(c1_send_failure rachInit (lit "a") (lit "//a") (.user 0) (.user 0)
      (pyList []) (pyList []) (pyList []) (pyList []) (.user 0) (.user 0) 1
      rfl rfl).1 (by decide),
   (c1_send_failure rachInit (lit "a") (lit "//a") (.user 0) (.user 0)
      (pyList []) (pyList []) (pyList []) (pyList []) (.user 0) (.user 0) 1
      rfl rfl).2.2.2.2.2⟩

/-! ### C2: `err` replies -/

/-- C2 — evaluating the dispatcher at the claim's own scenario: after
`add_sub` registers matcher `"1"` (error callback `empty_callback`, stored
error args the tuple `(self,)`), the inbound frame
`{"type":"err","matcher":"1","verbose":"denied"}` pops the record but then
raises `TypeError` (Python's `[err_msg] + args` cannot concatenate a list
with a tuple), so the stored error callback is never invoked; the topic is
indeed absent from the subscriber map, but the `err` path raises instead of
resolving the request. -/
theorem c2_err_on_addSub_record_raises :
    (process_msg (add_sub rachInit (lit "a") (.user 0) (pyList [])).1
      ⟨some (lit "err"), some (lit "1"), Option.none,
       .vStr (lit "denied")⟩).2.2 = some PyErr.typeError ∧
    (process_msg (add_sub rachInit (lit "a") (.user 0) (pyList [])).1
      ⟨some (lit "err"), some (lit "1"), Option.none,
       .vStr (lit "denied")⟩).2.1 = [] ∧
    (process_msg (add_sub rachInit (lit "a") (.user 0) (pyList [])).1
      ⟨some (lit "err"), some (lit "1"), Option.none,
       .vStr (lit "denied")⟩).1.request_map = [] ∧
    (process_msg (add_sub rachInit (lit "a") (.user 0) (pyList [])).1
      ⟨some (lit "err"), some (lit "1"), Option.none,
       .vStr (lit "denied")⟩).1.sub_topics = [] ∧
    dictMem (process_msg (add_sub rachInit (lit "a") (.user 0) (pyList [])).1
      ⟨some (lit "err"), some (lit "1"), Option.none,
       .vStr (lit "denied")⟩).1.callbacks (lit "//a") = false :=
  ⟨rfl, rfl, rfl, rfl, rfl⟩

/-! ### C4: repeated `add_sub` -/

/-- C4 counterexample — on a connected client, two `add_sub` calls on the
same topic with no acknowledgment in between send two `addSub` frames and
create two correlation entries: the second call is not a no-op, because
`sub_topics` is only populated by the `ack` handler. -/
theorem c4_counterexample :
    ((add_sub (add_sub {rachInit with connected := true}
        (lit "a") (.user 0) (pyList [])).1
        (lit "a") (.user 1) (pyList [])).1.sent.map OutMsg.typ =
      [lit "addSub", lit "addSub"]) ∧
    (add_sub (add_sub {rachInit with connected := true}
        (lit "a") (.user 0) (pyList [])).1
        (lit "a") (.user 1) (pyList [])).1.request_map.length = 2 :=
  ⟨by decide, by decide⟩

/-- C4 amended — a second `add_sub` on the same resolved topic is a local
no-op (no frame, no correlation entry, nothing at all) only when the topic is
already in the subscribed set, i.e. when the first request has been
acknowledged; before acknowledgment each `add_sub` sends its own `addSub`
frame and registers its own correlation entry, so two unacknowledged calls
produce two frames. -/
theorem c4_add_sub_dedup (s : RachState) (topic t : Str) (cb cb2 : Cb)
    (args args2 : PyVal)
    (hres : get_fully_qualified_topic s.ns topic = .ok t) :
    (t ∈ s.sub_topics → add_sub s topic cb args = (s, [], Option.none)) ∧
    (t ∉ s.sub_topics → s.connected = true →
      (add_sub s topic cb args).1.sent = s.sent ++
        [⟨lit "addSub", some (pyStrNat (s.matcher + 1)),
          .vDict (.cons (lit "topic") (.vStr t) .nil)⟩] ∧
      dictMem (add_sub s topic cb args).1.request_map
        (pyStrNat (s.matcher + 1)) = true ∧
      (add_sub s topic cb args).1.sub_topics = s.sub_topics) ∧
    (t ∉ s.sub_topics → s.connected = true →
      (add_sub (add_sub s topic cb args).1 topic cb2 args2).1.sent = s.sent ++
        [⟨lit "addSub", some (pyStrNat (s.matcher + 1)),
          .vDict (.cons (lit "topic") (.vStr t) .nil)⟩,
         ⟨lit "addSub", some (pyStrNat (s.matcher + 2)),
          .vDict (.cons (lit "topic") (.vStr t) .nil)⟩]) := by
  refine ⟨?_, ?_, ?_⟩
  · intro h
    exact add_sub_already s topic t cb args hres h
  · intro h hc
    rw [add_sub_eq s topic t cb args hres h]
    simp [hc, dictMem_dictSet_self]
  · intro h hc
    rw [add_sub_eq s topic t cb args hres h]
    dsimp only
    rw [if_pos hc]
    rw [add_sub_eq
      {s with matcher := s.matcher + 1,
              request_map := dictSet s.request_map (pyStrNat (s.matcher + 1))
                ⟨.add_callback, pyTuple [.vSelf, .vStr t, .vCb cb, args],
                 .empty_callback, pyTuple [.vSelf]⟩,
              sent := s.sent ++ [⟨lit "addSub", some (pyStrNat (s.matcher + 1)),
                .vDict (.cons (lit "topic") (.vStr t) .nil)⟩]}
      topic t cb2 args2 hres h]
    dsimp only
    rw [if_pos hc]
    simp

/-- C4 witness for the amended theorem: fresh connected client, topic `a`. -/
theorem c4_add_sub_dedup_witness :
    (add_sub (add_sub {rachInit with connected := true}
        (lit "a") (.user 0) (pyList [])).1
        (lit "a") (.user 1) (pyList [])).1.sent = [] ++
      [⟨lit "addSub", some (pyStrNat 1),
        .vDict (.cons (lit "topic") (.vStr (lit "//a")) .nil)⟩,
       ⟨lit "addSub", some (pyStrNat 2),
        .vDict (.cons (lit "topic") (.vStr (lit "//a")) .nil)⟩] :=
  (c4_add_sub_dedup {rachInit with connected := true} (lit "a") (lit "//a")
    (.user 0) (.user 1) (pyList []) (pyList []) rfl).2.2 (by decide) rfl

/-! ### Dispatcher branch equations -/

theorem process_err_dispatch (s : RachState) (m : Str) (verbose : PyVal) :
    process_msg s ⟨some (lit "err"), some m, Option.none, verbose⟩ =
      (match dictGet? s.request_map m with
       | Option.none => (s, [], Option.none)
       | some r =>
         match r.eArgs with
         | .none =>
           invoke {s with request_map := dictErase s.request_map m} r.onErr [verbose]
         | .vList xs =>
           invoke {s with request_map := dictErase s.request_map m} r.onErr
             (verbose :: xs.toList)
         | _ =>
           ({s with request_map := dictErase s.request_map m}, [],
            some PyErr.typeError)) := rfl

theorem process_ack_dispatch (s : RachState) (m : Str) :
    process_msg s ⟨some (lit "ack"), some m, Option.none, .none⟩ =
      (match dictGet? s.request_map m with
       | Option.none => (s, [], Option.none)
       | some r =>
         invokeStar {s with request_map := dictErase s.request_map m}
           r.onSuccess r.sArgs) := rfl

theorem process_service_dispatch (s : RachState) (m : Str) (d : Option PyVal) :
    process_msg s ⟨some (lit "service"), some m, d, .none⟩ =
      (match dictGet? s.request_map m with
       | Option.none => (s, [], Option.none)
       | some r =>
         match d with
         | Option.none | some .none =>
           invokeStar {s with request_map := dictErase s.request_map m}
             r.onSuccess r.sArgs
         | some dd =>
           match r.sArgs with
           | .vList xs =>
             invoke {s with request_map := dictErase s.request_map m}
               r.onSuccess (dd :: xs.toList)
           | _ =>
             ({s with request_map := dictErase s.request_map m}, [],
              some PyErr.typeError)) := rfl

theorem process_ping_dispatch (s : RachState) (m : Str) :
    process_msg s ⟨some (lit "cs_ping"), some m, Option.none, .none⟩ =
      (match dictGet? s.request_map m with
       | Option.none => (s, [], Option.none)
       | some r =>
         if r.onSuccess.callable then
           invoke {s with request_map := dictErase s.request_map m} r.onSuccess []
         else ({s with request_map := dictErase s.request_map m}, [],
           Option.none)) := rfl

theorem process_auth_dispatch (s : RachState) (mm : Option Str) (kvs : PyDict) :
    process_msg s ⟨some (lit "auth"), mm, some (.vDict kvs), .none⟩ =
      (if pyTruthy ((kvs.get? (lit "success")).getD (.vBool false)) then
        (s, [], Option.none)
       else stop s) := rfl

theorem process_auth_noData_dispatch (s : RachState) (mm : Option Str) :
    process_msg s ⟨some (lit "auth"), mm, Option.none, .none⟩ = stop s := rfl

/-! ### C6: dispatcher success paths -/

/-- C6 — for a pending matcher, `ack` pops the record and invokes its success
callback with the stored success args unmodified (lists and tuples unpack to
their elements); `service` prepends the frame's data to the stored (list)
args when data is present and passes the stored args alone when absent;
`cs_ping` invokes a callable success callback with no arguments; the pop
leaves the matcher absent, and for each of `err`/`ack`/`service`/`cs_ping` an
unknown or absent matcher changes nothing. -/
theorem c6_dispatcher_success (s : RachState) (m : Str) (r : ReqRec)
    (h : dictGet? s.request_map m = some r) :
    (∀ xs : PyList, r.sArgs = .vList xs ∨ r.sArgs = .vTuple xs →
      process_msg s ⟨some (lit "ack"), some m, Option.none, .none⟩ =
        invoke {s with request_map := dictErase s.request_map m}
          r.onSuccess xs.toList) ∧
    (∀ (xs : PyList) (d : PyVal), r.sArgs = .vList xs → d ≠ .none →
      process_msg s ⟨some (lit "service"), some m, some d, .none⟩ =
        invoke {s with request_map := dictErase s.request_map m}
          r.onSuccess (d :: xs.toList)) ∧
    (∀ xs : PyList, r.sArgs = .vList xs ∨ r.sArgs = .vTuple xs →
      process_msg s ⟨some (lit "service"), some m, Option.none, .none⟩ =
        invoke {s with request_map := dictErase s.request_map m}
          r.onSuccess xs.toList) ∧
    (r.onSuccess.callable = true →
      process_msg s ⟨some (lit "cs_ping"), some m, Option.none, .none⟩ =
        invoke {s with request_map := dictErase s.request_map m}
          r.onSuccess []) ∧
    dictMem (dictErase s.request_map m) m = false ∧
    (∀ ty ∈ [lit "err", lit "ack", lit "service", lit "cs_ping"],
      ∀ m2 : Str, dictGet? s.request_map m2 = Option.none →
        process_msg s ⟨some ty, some m2, Option.none, .none⟩ =
          (s, [], Option.none)) ∧
    (∀ ty ∈ [lit "err", lit "ack", lit "service", lit "cs_ping"],
      process_msg s ⟨some ty, Option.none, Option.none, .none⟩ =
        (s, [], Option.none)) := by
  refine ⟨?_, ?_, ?_, ?_, dictMem_dictErase_self s.request_map m, ?_, ?_⟩
  · intro xs hxs
    rw [process_ack_dispatch, h]
    rcases hxs with hsa | hsa <;> simp only [invokeStar, hsa, pyStarArgs]
  · intro xs d hsa hd
    rw [process_service_dispatch, h]
    cases d <;> first
      | exact absurd rfl hd
      | simp only [hsa]
  · intro xs hxs
    rw [process_service_dispatch, h]
    rcases hxs with hsa | hsa <;> simp only [invokeStar, hsa, pyStarArgs]
  · intro hcall
    rw [process_ping_dispatch, h]
    dsimp only
    rw [if_pos hcall]
  · intro ty hty m2 h2
    simp only [List.mem_cons, List.not_mem_nil, or_false] at hty
    rcases hty with rfl | rfl | rfl | rfl
    · rw [process_err_dispatch, h2]
    · rw [process_ack_dispatch, h2]
    · rw [process_service_dispatch, h2]
    · rw [process_ping_dispatch, h2]
  · intro ty hty
    simp only [List.mem_cons, List.not_mem_nil, or_false] at hty
    rcases hty with rfl | rfl | rfl | rfl
    · rfl
    · rfl
    · rfl
    · rfl

/-- C6 witness: a client with one pending service-style record (matcher
`"1"`, user callback 7, stored success args the list `[5]`), receiving a
`service` reply carrying data. -/
theorem c6_dispatcher_success_witness :
    process_msg
      {rachInit with request_map :=
        [(lit "1", ⟨.user 7, pyList [.vInt 5], .user 8, pyList []⟩)]}
      ⟨some (lit "service"), some (lit "1"), some (.vInt 3), .none⟩ =
      invoke {rachInit with request_map := []} (.user 7)
        [.vInt 3, .vInt 5] :=
  (c6_dispatcher_success
    {rachInit with request_map :=
      [(lit "1", ⟨.user 7, pyList [.vInt 5], .user 8, pyList []⟩)]}
    (lit "1") ⟨.user 7, pyList [.vInt 5], .user 8, pyList []⟩
    rfl).2.1 (.cons (.vInt 5) .nil) (.vInt 3) rfl (by intro hh; cases hh)

/-! ### C7: publish guard -/

/-- C7 — `pub` on a resolved topic absent from the publish-registration map
logs and returns: the state is unchanged, no frame is sent, no callback and
no error; on a registered topic (connected, serializable data) it sends
exactly one `pub` frame whose data is `{'topic': topic, 'data': data}`. -/
theorem c7_pub_guard (s : RachState) (topic t : Str) (data : PyVal)
    (hres : get_fully_qualified_topic s.ns topic = .ok t) :
    (t ∉ s.pub_topics → pub s topic data = (s, [], Option.none)) ∧
    (t ∈ s.pub_topics → jsonSafe data = true → s.connected = true →
      (pub s topic data).1.sent = s.sent ++
        [⟨lit "pub", some (pyStrNat (s.matcher + 1)),
          .vDict (.cons (lit "topic") (.vStr t)
            (.cons (lit "data") data .nil))⟩] ∧
      (pub s topic data).2.1 = [] ∧
      (pub s topic data).2.2 = Option.none) := by
  refine ⟨?_, ?_⟩
  · intro h
    exact pub_not_registered s topic t data hres h
  · intro h hd hc
    rw [pub_eq s topic t data hres h hd]
    simp [hc]

/-- C7 witness: an unregistered topic on a fresh client produces no frame;
a registered topic on a connected client produces exactly the `pub` frame. -/
theorem c7_pub_guard_witness :
    pub rachInit (lit "b") (.vInt 1) = (rachInit, [], Option.none) ∧
    (pub {rachInit with connected := true, pub_topics := [lit "//a"]}
        (lit "a") (.vInt 1)).1.sent =
      [] ++ [⟨lit "pub", some (pyStrNat 1),
        .vDict (.cons (lit "topic") (.vStr (lit "//a"))
          (.cons (lit "data") (.vInt 1) .nil))⟩] :=
  ⟨(c7_pub_guard rachInit (lit "b") (lit "//b") (.vInt 1) rfl).1 (by decide),
   ((c7_pub_guard {rachInit with connected := true, pub_topics := [lit "//a"]}
      (lit "a") (lit "//a") (.vInt 1) rfl).2 (by decide) rfl rfl).1⟩

/-! ### C9: publisher handles -/

/-- C9 counterexample — the first `add_pub` on a connected client returns a
handle, but once the registration is acknowledged (resolved topic present in
`pub_topics`), a second `add_pub` on the same topic returns `None` rather
than a handle, contradicting "for every call". -/
theorem c9_counterexample :
    (add_pub {rachInit with connected := true} (lit "a")).1 =
      some ⟨lit "//a"⟩ ∧
    (add_pub (process_msg
        (add_pub {rachInit with connected := true} (lit "a")).2.1
        ⟨some (lit "ack"), some (lit "1"), Option.none, .none⟩).1
        (lit "a")).1 = Option.none :=
  ⟨rfl, rfl⟩

/-- C9 amended — `add_pub` synchronously returns a Publisher handle bound to
the resolved topic whenever that topic is not already in the
publish-registration map (in particular before any acknowledgment); when the
topic is already registered it returns `None`.  The handle's `pub` forwards
to the client's `pub` on the stored topic and its `close` forwards to the
client's `rm_pub`. -/
theorem c9_publisher_handle (s : RachState) (topic t : Str) (data : PyVal)
    (hres : get_fully_qualified_topic s.ns topic = .ok t) :
    (t ∉ s.pub_topics → (add_pub s topic).1 = some ⟨t⟩) ∧
    (t ∈ s.pub_topics → (add_pub s topic).1 = Option.none) ∧
    (∀ (p : Publisher) (s2 : RachState), p.pubThrough s2 data = pub s2 p.topic data) ∧
    (∀ (p : Publisher) (s2 : RachState), p.close s2 = rm_pub s2 p.topic) := by
  refine ⟨?_, ?_, fun p s2 => rfl, fun p s2 => rfl⟩
  · intro h
    rw [add_pub_eq s topic t hres h]
  · intro h
    rw [add_pub_already s topic t hres h]

/-- C9 amended witness: a fresh client, topic `a`, handle for `//a`. -/
theorem c9_publisher_handle_witness :
    (add_pub rachInit (lit "a")).1 = some ⟨lit "//a"⟩ ∧
    Publisher.pubThrough ⟨lit "//a"⟩ rachInit (.vInt 1) =
      pub rachInit (lit "//a") (.vInt 1) :=
  ⟨(c9_publisher_handle rachInit (lit "a") (lit "//a") (.vInt 1) rfl).1
     (by decide),
   (c9_publisher_handle rachInit (lit "a") (lit "//a") (.vInt 1) rfl).2.2.1
     ⟨lit "//a"⟩ rachInit⟩

/-! ### C8: authentication failure -/

theorem rm_sub_resolved_spec (s : RachState) (t : Str)
    (hc : s.connected = true) (ht : t ∈ s.sub_topics) (hrt : resolvedTopic t) :
    (rm_sub s t).2.2 = Option.none ∧
    (rm_sub s t).2.1 = [] ∧
    (rm_sub s t).1.connected = true ∧
    (rm_sub s t).1.killed = s.killed ∧
    (rm_sub s t).1.sockClosed = s.sockClosed ∧
    (rm_sub s t).1.sub_topics = s.sub_topics ∧
    (rm_sub s t).1.pub_topics = s.pub_topics ∧
    (rm_sub s t).1.sent = s.sent ++
      [⟨lit "rmSub", some (pyStrNat (s.matcher + 1)),
        .vDict (.cons (lit "topic") (.vStr t) .nil)⟩] := by
  rw [rm_sub_eq s t t (gfqt_resolved s.ns hrt) ht]
  dsimp only
  rw [if_pos hc]
  exact ⟨rfl, rfl, hc, rfl, rfl, rfl, rfl, rfl⟩

theorem rm_pub_resolved_spec (s : RachState) (t : Str)
    (hc : s.connected = true) (ht : t ∈ s.pub_topics) (hrt : resolvedTopic t) :
    (rm_pub s t).2.2 = Option.none ∧
    (rm_pub s t).2.1 = [] ∧
    (rm_pub s t).1.connected = true ∧
    (rm_pub s t).1.killed = s.killed ∧
    (rm_pub s t).1.sockClosed = s.sockClosed ∧
    (rm_pub s t).1.sub_topics = s.sub_topics ∧
    (rm_pub s t).1.pub_topics = s.pub_topics ∧
    (rm_pub s t).1.sent = s.sent ++
      [⟨lit "rmPub", some (pyStrNat (s.matcher + 1)),
        .vDict (.cons (lit "topic") (.vStr t) .nil)⟩] := by
  rw [rm_pub_eq s t t (gfqt_resolved s.ns hrt) ht]
  dsimp only
  rw [if_pos hc]
  exact ⟨rfl, rfl, hc, rfl, rfl, rfl, rfl, rfl⟩

theorem runAll_rm_sub_spec (ts : List Str) : ∀ s : RachState,
    s.connected = true →
    (∀ t ∈ ts, t ∈ s.sub_topics) →
    (∀ t ∈ ts, resolvedTopic t) →
    (runAll rm_sub s ts).2.2 = Option.none ∧
    (runAll rm_sub s ts).1.connected = true ∧
    (runAll rm_sub s ts).1.killed = s.killed ∧
    (runAll rm_sub s ts).1.sockClosed = s.sockClosed ∧
    (runAll rm_sub s ts).1.sub_topics = s.sub_topics ∧
    (runAll rm_sub s ts).1.pub_topics = s.pub_topics ∧
    ∃ l, (runAll rm_sub s ts).1.sent = s.sent ++ l ∧
      ∀ t ∈ ts, ∃ m, (⟨lit "rmSub", some m,
        .vDict (.cons (lit "topic") (.vStr t) .nil)⟩ : OutMsg) ∈ l := by
  induction ts with
  | nil =>
    intro s hc _ _
    exact ⟨rfl, hc, rfl, rfl, rfl, rfl, [], by simp [runAll], by simp⟩
  | cons t ts ih =>
    intro s hc hmem hres
    have hspec := rm_sub_resolved_spec s t hc (hmem t (by simp)) (hres t (by simp))
    rcases hR : rm_sub s t with ⟨s1, ev1, e1⟩
    rw [hR] at hspec
    dsimp only at hspec
    obtain ⟨he1, hev1, hc1, hk1, hso1, hsub1, hpub1, hsent1⟩ := hspec
    subst he1
    have hmem1 : ∀ u ∈ ts, u ∈ s1.sub_topics := by
      intro u hu
      rw [hsub1]
      exact hmem u (by simp [hu])
    have hres1 : ∀ u ∈ ts, resolvedTopic u := fun u hu => hres u (by simp [hu])
    have hih := ih s1 hc1 hmem1 hres1
    rcases hR2 : runAll rm_sub s1 ts with ⟨s2, ev2, e2⟩
    rw [hR2] at hih
    dsimp only at hih
    obtain ⟨he2, hc2, hk2, hso2, hsub2, hpub2, l2, hsent2, hl2⟩ := hih
    subst he2
    unfold runAll
    rw [hR]
    dsimp only
    rw [hR2]
    dsimp only
    refine ⟨rfl, hc2, hk2.trans hk1, hso2.trans hso1, hsub2.trans hsub1,
      hpub2.trans hpub1, ?_⟩
    refine ⟨[⟨lit "rmSub", some (pyStrNat (s.matcher + 1)),
      .vDict (.cons (lit "topic") (.vStr t) .nil)⟩] ++ l2, ?_, ?_⟩
    · rw [hsent2, hsent1, List.append_assoc]
    · intro u hu
      rcases List.mem_cons.mp hu with rfl | hu2
      · exact ⟨pyStrNat (s.matcher + 1), by simp⟩
      · obtain ⟨m2, hm2⟩ := hl2 u hu2
        exact ⟨m2, by simp [hm2]⟩

theorem runAll_rm_pub_spec (ts : List Str) : ∀ s : RachState,
    s.connected = true →
    (∀ t ∈ ts, t ∈ s.pub_topics) →
    (∀ t ∈ ts, resolvedTopic t) →
    (runAll rm_pub s ts).2.2 = Option.none ∧
    (runAll rm_pub s ts).1.connected = true ∧
    (runAll rm_pub s ts).1.killed = s.killed ∧
    (runAll rm_pub s ts).1.sockClosed = s.sockClosed ∧
    (runAll rm_pub s ts).1.sub_topics = s.sub_topics ∧
    (runAll rm_pub s ts).1.pub_topics = s.pub_topics ∧
    ∃ l, (runAll rm_pub s ts).1.sent = s.sent ++ l ∧
      ∀ t ∈ ts, ∃ m, (⟨lit "rmPub", some m,
        .vDict (.cons (lit "topic") (.vStr t) .nil)⟩ : OutMsg) ∈ l := by
  induction ts with
  | nil =>
    intro s hc _ _
    exact ⟨rfl, hc, rfl, rfl, rfl, rfl, [], by simp [runAll], by simp⟩
  | cons t ts ih =>
    intro s hc hmem hres
    have hspec := rm_pub_resolved_spec s t hc (hmem t (by simp)) (hres t (by simp))
    rcases hR : rm_pub s t with ⟨s1, ev1, e1⟩
    rw [hR] at hspec
    dsimp only at hspec
    obtain ⟨he1, hev1, hc1, hk1, hso1, hsub1, hpub1, hsent1⟩ := hspec
    subst he1
    have hmem1 : ∀ u ∈ ts, u ∈ s1.pub_topics := by
      intro u hu
      rw [hpub1]
      exact hmem u (by simp [hu])
    have hres1 : ∀ u ∈ ts, resolvedTopic u := fun u hu => hres u (by simp [hu])
    have hih := ih s1 hc1 hmem1 hres1
    rcases hR2 : runAll rm_pub s1 ts with ⟨s2, ev2, e2⟩
    rw [hR2] at hih
    dsimp only at hih
    obtain ⟨he2, hc2, hk2, hso2, hsub2, hpub2, l2, hsent2, hl2⟩ := hih
    subst he2
    unfold runAll
    rw [hR]
    dsimp only
    rw [hR2]
    dsimp only
    refine ⟨rfl, hc2, hk2.trans hk1, hso2.trans hso1, hsub2.trans hsub1,
      hpub2.trans hpub1, ?_⟩
    refine ⟨[⟨lit "rmPub", some (pyStrNat (s.matcher + 1)),
      .vDict (.cons (lit "topic") (.vStr t) .nil)⟩] ++ l2, ?_, ?_⟩
    · rw [hsent2, hsent1, List.append_assoc]
    · intro u hu
      rcases List.mem_cons.mp hu with rfl | hu2
      · exact ⟨pyStrNat (s.matcher + 1), by simp⟩
      · obtain ⟨m2, hm2⟩ := hl2 u hu2
        exact ⟨m2, by simp [hm2]⟩

theorem stop_spec (s : RachState)
    (hc : s.connected = true)
    (hsub : ∀ t ∈ s.sub_topics, resolvedTopic t)
    (hpub : ∀ t ∈ s.pub_topics, resolvedTopic t) :
    (stop s).2.2 = Option.none ∧
    (stop s).1.killed = true ∧
    (stop s).1.sockClosed = true ∧
    (∀ t ∈ s.sub_topics, ∃ m, (⟨lit "rmSub", some m,
      .vDict (.cons (lit "topic") (.vStr t) .nil)⟩ : OutMsg) ∈ (stop s).1.sent) ∧
    (∀ t ∈ s.pub_topics, ∃ m, (⟨lit "rmPub", some m,
      .vDict (.cons (lit "topic") (.vStr t) .nil)⟩ : OutMsg) ∈ (stop s).1.sent) := by
  have h1 := runAll_rm_sub_spec ({s with killed := true} : RachState).sub_topics
    {s with killed := true} hc (fun t ht => ht) hsub
  rcases hR1 : runAll rm_sub {s with killed := true}
      ({s with killed := true} : RachState).sub_topics with ⟨s1, ev1, e1⟩
  rw [hR1] at h1
  dsimp only at h1
  obtain ⟨he1, hc1, hk1, hso1, hsub1, hpub1, l1, hsent1, hl1⟩ := h1
  subst he1
  have h2 := runAll_rm_pub_spec s1.pub_topics s1 hc1 (fun t ht => ht)
    (by rw [hpub1]; exact hpub)
  rcases hR2 : runAll rm_pub s1 s1.pub_topics with ⟨s2, ev2, e2⟩
  rw [hR2] at h2
  dsimp only at h2
  obtain ⟨he2, hc2, hk2, hso2, hsub2, hpub2, l2, hsent2, hl2⟩ := h2
  subst he2
  have hstop : stop s = ({s2 with sockClosed := true}, ev1 ++ ev2, Option.none) := by
    simp only [stop, rm_all_sub, rm_all_pub]
    rw [hR1]
    dsimp only
    rw [hR2]
  rw [hstop]
  refine ⟨rfl, by dsimp only; rw [hk2, hk1], rfl, ?_, ?_⟩
  · intro t ht
    obtain ⟨m, hm⟩ := hl1 t ht
    refine ⟨m, ?_⟩
    dsimp only
    rw [hsent2, hsent1]
    simp [hm]
  · intro t ht
    obtain ⟨m, hm⟩ := hl2 t (by rw [hpub1]; exact ht)
    refine ⟨m, ?_⟩
    dsimp only
    rw [hsent2]
    simp [hm]

/-- C8 — an inbound `auth` frame whose `data.success` is not truthy (or whose
data is absent) triggers `stop()`: the kill flag is set, an `rmSub` removal
frame is issued for every active subscription and an `rmPub` frame for every
publish registration, and the transport is closed; a truthy `data.success`
changes nothing. -/
theorem c8_auth_failure (s : RachState) (kvs : PyDict) (mm : Option Str)
    (hc : s.connected = true)
    (hsub : ∀ t ∈ s.sub_topics, resolvedTopic t)
    (hpub : ∀ t ∈ s.pub_topics, resolvedTopic t) :
    (pyTruthy ((kvs.get? (lit "success")).getD (.vBool false)) = true →
      process_msg s ⟨some (lit "auth"), mm, some (.vDict kvs), .none⟩ =
        (s, [], Option.none)) ∧
    (pyTruthy ((kvs.get? (lit "success")).getD (.vBool false)) = false →
      process_msg s ⟨some (lit "auth"), mm, some (.vDict kvs), .none⟩ = stop s) ∧
    process_msg s ⟨some (lit "auth"), mm, Option.none, .none⟩ = stop s ∧
    (stop s).2.2 = Option.none ∧
    (stop s).1.killed = true ∧
    (stop s).1.sockClosed = true ∧
    (∀ t ∈ s.sub_topics, ∃ m, (⟨lit "rmSub", some m,
      .vDict (.cons (lit "topic") (.vStr t) .nil)⟩ : OutMsg) ∈ (stop s).1.sent) ∧
    (∀ t ∈ s.pub_topics, ∃ m, (⟨lit "rmPub", some m,
      .vDict (.cons (lit "topic") (.vStr t) .nil)⟩ : OutMsg) ∈ (stop s).1.sent) := by
  obtain ⟨h1, h2, h3, h4, h5⟩ := stop_spec s hc hsub hpub
  refine ⟨?_, ?_, process_auth_noData_dispatch s mm, h1, h2, h3, h4, h5⟩
  · intro h
    rw [process_auth_dispatch, if_pos h]
  · intro h
    rw [process_auth_dispatch, if_neg (by rw [h]; exact Bool.false_ne_true)]

/-- C8 witness: a connected client subscribed to `/a` and registered to
publish on `/b`, receiving `{"type":"auth","data":{"success":false}}`. -/
theorem c8_auth_failure_witness :
    process_msg
      {rachInit with
        connected := true, sub_topics := [lit "/a"], pub_topics := [lit "/b"]}
      ⟨some (lit "auth"), Option.none,
       some (.vDict (.cons (lit "success") (.vBool false) .nil)), .none⟩ =
      stop
        {rachInit with
          connected := true, sub_topics := [lit "/a"],
          pub_topics := [lit "/b"]} ∧
    (stop
      {rachInit with
        connected := true, sub_topics := [lit "/a"],
        pub_topics := [lit "/b"]}).1.killed = true :=
  ⟨((c8_auth_failure
      {rachInit with
        connected := true, sub_topics := [lit "/a"], pub_topics := [lit "/b"]}
      (.cons (lit "success") (.vBool false) .nil) Option.none rfl
      (by intro t ht; simp at ht; subst ht; exact ⟨rfl, by decide⟩)
      (by intro t ht; simp at ht; subst ht; exact ⟨rfl, by decide⟩)).2.1 rfl),
   ((c8_auth_failure
      {rachInit with
        connected := true, sub_topics := [lit "/a"], pub_topics := [lit "/b"]}
      (.cons (lit "success") (.vBool false) .nil) Option.none rfl
      (by intro t ht; simp at ht; subst ht; exact ⟨rfl, by decide⟩)
      (by intro t ht; simp at ht; subst ht; exact ⟨rfl, by decide⟩)).2.2.2.2.1)⟩

end RachSpec
